import Mathlib

/-!
Shallow embedding of the volleyball queue-management rotation engine
(`src/types.ts` data model plus the `QueueManager` class of
`queue-management.ts`), together with theorems checking the
natural-language specification against it.

Conventions of the embedding:
* JavaScript numbers used as scores are modelled as `Int`; player ids and
  court ids are `Nat`.
* The caller-supplied `scoreMap : Record<number, Team>` of `recordResult`
  is modelled as the list of score/team entries that
  `Object.entries(scoreMap).map(...)` produces in the source.
* In-place mutation with exceptions is modelled by explicit state passing:
  each mutating operation returns `Option QError × EngineState`, where the
  first component is `some e` when the source throws `e`, and the second
  component is the state at that moment (JavaScript exceptions leave all
  mutations performed before the throw in place).
* `Date` timestamps are external wall-clock values with no influence on
  control flow; the `timestamp` field of `MatchResult` is omitted.
-/

/-- Models `Player` of `types.ts`: a numeric id plus a display name. -/
structure Player where
  id : Nat
  name : String
deriving DecidableEq

/-- Models `Team` of `types.ts`: a pair of players. -/
structure Team where
  player1 : Player
  player2 : Player
deriving DecidableEq

/-- Models `Match` of `types.ts`.  `currentScores` holds the optional live
per-team point counters. -/
structure Match where
  team1 : Team
  team2 : Team
  matchNumber : Nat
  courtId : Option Nat := none
  currentScores : Option (Int × Int) := none
deriving DecidableEq

/-- Models `MatchResult` of `types.ts` (without the wall-clock
`timestamp`, see the header comment).  A stored score is a
team/points pair, mirroring `Score`. -/
structure MatchResult where
  matchPlayed : Match
  winner : Team
  loser : Team
  courtId : Option Nat := none
  scores : Option ((Team × Int) × (Team × Int)) := none
deriving DecidableEq

/-- Models `Court` of `types.ts`. -/
structure Court where
  id : Nat
  currentMatch : Option Match
  consecutiveWins : Nat
  currentCourtTeam : Option Team
deriving DecidableEq

/-- Models `TeamStatistics` of `types.ts`. -/
structure TeamStatistics where
  team : Team
  wins : Nat
  losses : Nat
  totalPoints : Int
  pointsAgainst : Int
deriving DecidableEq

/-- Models `SystemState` of `types.ts` together with the private
`matchCounter` field of `QueueManager`. -/
structure EngineState where
  courts : List Court
  queue : List Team
  matchHistory : List MatchResult
  matchCounter : Nat
deriving DecidableEq

/-- The error classes of `types.ts`, as a closed variant type. -/
inductive QError where
  | insufficientTeams
  | invalidMatchResult
  | noActiveMatch
  | courtNotFound
  | notInitialized
deriving DecidableEq

/-- Lexicographic comparison of two character lists, mirroring how the
JavaScript default `Array.prototype.sort` comparator compares the string
representations of two numbers. -/
def strLt : List Char → List Char → Bool
  | [], [] => false
  | [], _ :: _ => true
  | _ :: _, [] => false
  | a :: as, b :: bs => if a < b then true else if b < a then false else strLt as bs

/-- Decimal digits of a natural number, as produced by JavaScript
`String(n)` for a nonnegative integer id. -/
def numStr (n : Nat) : List Char := (Nat.repr n).data

/-- Models `[a, b].sort()` on a two-element array of numeric ids: the JS
default comparator sorts by the lexicographic order of the decimal
strings, and the sort is stable, so the pair is swapped exactly when the
second element's string is strictly below the first's. -/
def sortIds (a b : Nat) : Nat × Nat :=
  if strLt (numStr b) (numStr a) then (b, a) else (a, b)

/-- Models `areTeamsEqual` of `queue-management.ts`: order-independent
team identity via the sorted pair of player ids. -/
def areTeamsEqual (t1 t2 : Team) : Bool :=
  let ids1 := sortIds t1.player1.id t1.player2.id
  let ids2 := sortIds t2.player1.id t2.player2.id
  ids1.1 == ids2.1 && ids1.2 == ids2.2

/-- Models `QueueManager.getTeamKey`.  The source returns the string
`ids[0] + "-" + ids[1]`, an injective encoding of the sorted id pair;
the embedding uses the pair itself as the key. -/
def getTeamKey (t : Team) : Nat × Nat :=
  sortIds t.player1.id t.player2.id

theorem areTeamsEqual_iff_key (t1 t2 : Team) :
    areTeamsEqual t1 t2 = true ↔ getTeamKey t1 = getTeamKey t2 := by
  unfold areTeamsEqual getTeamKey
  rcases h1 : sortIds t1.player1.id t1.player2.id with ⟨a1, b1⟩
  rcases h2 : sortIds t2.player1.id t2.player2.id with ⟨a2, b2⟩
  simp [Prod.ext_iff]

theorem areTeamsEqual_refl (t : Team) : areTeamsEqual t t = true := by
  rw [areTeamsEqual_iff_key]

/-- Models the `QueueManager` constructor: `numberOfCourts` courts with
ids `1..n`, no matches, empty queue, empty history. -/
def mkManager (numberOfCourts : Nat) : EngineState :=
  { courts := (List.range numberOfCourts).map fun i =>
      { id := i + 1, currentMatch := none, consecutiveWins := 0, currentCourtTeam := none }
    queue := []
    matchHistory := []
    matchCounter := 0 }

/-- The court-assignment loop of `QueueManager.initialize`: consumes two
teams per court in input order, giving each court a fresh match with the
next sequence number and cleared streak state.  Returns the updated
courts, the leftover teams and the new counter.  The two final equations
are unreachable when the caller has checked
`teams.length ≥ 2 * courts.length`. -/
def assignCourts : List Court → List Team → Nat → List Court × List Team × Nat
  | [], ts, k => ([], ts, k)
  | court :: rest, t1 :: t2 :: ts, k =>
    let r := assignCourts rest ts (k + 1)
    ({ court with
        currentMatch := some { team1 := t1, team2 := t2, matchNumber := k + 1,
                               courtId := some court.id }
        consecutiveWins := 0
        currentCourtTeam := none } :: r.1, r.2.1, r.2.2)
  | court :: rest, [], k => (court :: rest, [], k)
  | court :: rest, [t], k => (court :: rest, [t], k)

/-- Models `QueueManager.initialize` (named `initTeams` here because the
source's name is not usable in this development). -/
def initTeams (s : EngineState) (teams : List Team) : Option QError × EngineState :=
  if teams.length < s.courts.length * 2 then
    (some .insufficientTeams, s)
  else
    let r := assignCourts s.courts teams s.matchCounter
    (none, { courts := r.1, queue := r.2.1, matchHistory := [], matchCounter := r.2.2 })

/-- Models `QueueManager.addTeams`: requires some court to hold a match,
filters out candidates whose identity key already occurs in the queue or
on a court, and appends the rest to the queue. -/
def addTeams (s : EngineState) (teams : List Team) : Option QError × EngineState :=
  if s.courts.all (fun c => c.currentMatch.isNone) then
    (some .notInitialized, s)
  else
    let existingKeys :=
      s.queue.map getTeamKey ++
        s.courts.flatMap fun c =>
          match c.currentMatch with
          | some m => [getTeamKey m.team1, getTeamKey m.team2]
          | none => []
    let newTeams := teams.filter fun t => ¬ existingKeys.contains (getTeamKey t)
    (none, { s with queue := s.queue ++ newTeams })

/-- The consecutive-wins update of `recordResult` (source lines 329-334):
if the winner is identity-equal to the court's streak-holder the counter
is incremented (keeping the stored holder object), otherwise the counter
becomes 1 and the holder becomes the winner. -/
def streakUpdate (court : Court) (winner : Team) : Nat × Option Team :=
  match court.currentCourtTeam with
  | some t => if areTeamsEqual winner t then (court.consecutiveWins + 1, some t)
              else (1, some winner)
  | none => (1, some winner)

/-- Replace the first court with the given id, mirroring the in-place
mutation of the court object found by `find`. -/
def updateCourt : List Court → Nat → Court → List Court
  | [], _, _ => []
  | c :: cs, cid, c' => if c.id == cid then c' :: cs else c :: updateCourt cs cid c'

/-- Models `QueueManager.recordResult`.  `entries` is the score/team
entry list extracted from the caller's score map; the source sorts the
two entries descending by score with a stable sort, so the second entry
becomes the winner exactly when its score is strictly greater.  The two
`insufficientTeams` results inside the success path model the two
`InsufficientTeamsError` throw sites of the source (with the state as
mutated up to the throw); both are unreachable, see `C9_recordResult_no_insufficient`. -/
def recordResult (s : EngineState) (courtId : Nat) (entries : List (Int × Team)) :
    Option QError × EngineState :=
  match s.courts.find? (fun c => c.id == courtId) with
  | none => (some .courtNotFound, s)
  | some court =>
    match court.currentMatch with
    | none => (some .noActiveMatch, s)
    | some m =>
      match entries with
      | [e1, e2] =>
        if (areTeamsEqual e1.2 m.team1 || areTeamsEqual e1.2 m.team2)
            && (areTeamsEqual e2.2 m.team1 || areTeamsEqual e2.2 m.team2) then
          let w := if e2.1 > e1.1 then e2 else e1
          let l := if e2.1 > e1.1 then e1 else e2
          let result : MatchResult :=
            { matchPlayed := m, winner := w.2, loser := l.2, courtId := some court.id,
              scores := some ((w.2, w.1), (l.2, l.1)) }
          let hist := s.matchHistory ++ [result]
          let su := streakUpdate court w.2
          if 2 ≤ su.1 ∧ 2 ≤ s.queue.length then
            if s.queue.length < 2 then
              (some .insufficientTeams,
                { s with matchHistory := hist,
                         courts := updateCourt s.courts courtId
                           { court with consecutiveWins := su.1, currentCourtTeam := su.2 } })
            else
              match s.queue with
              | n1 :: n2 :: rest =>
                (none,
                  { courts := updateCourt s.courts courtId
                      { court with
                          consecutiveWins := 0
                          currentCourtTeam := none
                          currentMatch := some { team1 := n1, team2 := n2,
                                                 matchNumber := s.matchCounter + 1,
                                                 courtId := some court.id } }
                    queue := rest ++ [w.2, l.2]
                    matchHistory := hist
                    matchCounter := s.matchCounter + 1 })
              | _ =>
                -- unreachable: the guard above ensures at least two queue entries
                (some .insufficientTeams,
                  { s with matchHistory := hist,
                           courts := updateCourt s.courts courtId
                             { court with consecutiveWins := su.1, currentCourtTeam := su.2 } })
          else
            let queue1 := s.queue ++ [l.2]
            if queue1.length < 1 then
              (some .insufficientTeams,
                { s with matchHistory := hist, queue := queue1,
                         courts := updateCourt s.courts courtId
                           { court with consecutiveWins := su.1, currentCourtTeam := su.2 } })
            else
              match queue1 with
              | next :: rest =>
                (none,
                  { courts := updateCourt s.courts courtId
                      { court with
                          consecutiveWins := su.1
                          currentCourtTeam := su.2
                          currentMatch := some { team1 := w.2, team2 := next,
                                                 matchNumber := s.matchCounter + 1,
                                                 courtId := some court.id } }
                    queue := rest
                    matchHistory := hist
                    matchCounter := s.matchCounter + 1 })
              | [] =>
                -- unreachable: `queue1` ends in the pushed loser
                (some .insufficientTeams,
                  { s with matchHistory := hist, queue := queue1,
                           courts := updateCourt s.courts courtId
                             { court with consecutiveWins := su.1, currentCourtTeam := su.2 } })
        else (some .invalidMatchResult, s)
      | _ => (some .invalidMatchResult, s)

/-- One stats-map entry: identity key paired with the accumulated
statistics, mirroring one `Map` entry of `getTeamStatistics`.  Insertion
order of the association list mirrors the insertion order that a
JavaScript `Map` preserves. -/
abbrev StatsMap := List ((Nat × Nat) × TeamStatistics)

/-- Fresh statistics record, as created by `getTeamStatistics` on first
sight of a team. -/
def initStats (t : Team) : TeamStatistics :=
  { team := t, wins := 0, losses := 0, totalPoints := 0, pointsAgainst := 0 }

/-- Append a fresh entry for `k` unless the key is already present,
mirroring `if (!statsMap.has(key)) statsMap.set(key, {...})`. -/
def ensureEntry (l : StatsMap) (k : Nat × Nat) (t : Team) : StatsMap :=
  if l.any (fun p => p.1 == k) then l else l ++ [(k, initStats t)]

/-- Update the (first, hence unique) entry with key `k` in place. -/
def updateStats (l : StatsMap) (k : Nat × Nat) (f : TeamStatistics → TeamStatistics) :
    StatsMap :=
  match l with
  | [] => []
  | p :: rest => if p.1 == k then (p.1, f p.2) :: rest else p :: updateStats rest k f

def bumpWins (st : TeamStatistics) : TeamStatistics := { st with wins := st.wins + 1 }

def bumpLosses (st : TeamStatistics) : TeamStatistics := { st with losses := st.losses + 1 }

def addPoints (pts against : Int) (st : TeamStatistics) : TeamStatistics :=
  { st with totalPoints := st.totalPoints + pts, pointsAgainst := st.pointsAgainst + against }

/-- The per-result body of the `getTeamStatistics` fold: ensure both
entries exist, bump the winner's wins and the loser's losses, and, when
the stored scores contain an entry identity-equal to the winner and one
identity-equal to the loser (`scores.find(...)`), accumulate the points. -/
def applyResult (acc : StatsMap) (r : MatchResult) : StatsMap :=
  let kW := getTeamKey r.winner
  let kL := getTeamKey r.loser
  let acc1 := ensureEntry acc kW r.winner
  let acc2 := ensureEntry acc1 kL r.loser
  let acc3 := updateStats acc2 kW bumpWins
  let acc4 := updateStats acc3 kL bumpLosses
  match r.scores with
  | none => acc4
  | some (s1, s2) =>
    let wsc := if areTeamsEqual s1.1 r.winner then some s1.2
               else if areTeamsEqual s2.1 r.winner then some s2.2 else none
    let lsc := if areTeamsEqual s1.1 r.loser then some s1.2
               else if areTeamsEqual s2.1 r.loser then some s2.2 else none
    match wsc, lsc with
    | some ws, some ls => updateStats (updateStats acc4 kW (addPoints ws ls)) kL (addPoints ls ws)
    | _, _ => acc4

/-- The comparator of `getTeamStatistics` as a boolean "may precede"
relation: `a` may come before `b` when `a` has strictly more wins, or
equal wins and at least as many total points.  This is exactly
`cmp(a,b) <= 0` for the source comparator
`(a, b) => b.wins - a.wins || b.totalPoints - a.totalPoints`. -/
def statsLe (a b : TeamStatistics) : Bool :=
  decide (b.wins < a.wins) || (a.wins == b.wins && decide (b.totalPoints ≤ a.totalPoints))

/-- Models `QueueManager.getTeamStatistics`, as a function of the match
log it folds (the source reads `this.state.matchHistory`): fold the log
into the keyed map, then stably sort the collected values by wins
descending, ties by total points descending. -/
def getTeamStatistics (history : List MatchResult) : List TeamStatistics :=
  ((history.foldl applyResult []).map (fun p => p.2)).mergeSort statsLe

/-- Identity keys of the two teams occupying a court, empty when the
court has no match. -/
def courtTeamKeys (c : Court) : List (Nat × Nat) :=
  match c.currentMatch with
  | some m => [getTeamKey m.team1, getTeamKey m.team2]
  | none => []

/-- The multiset of team identities distributed across the courts'
current matches and the queue. -/
def occupantKeys (s : EngineState) : Multiset (Nat × Nat) :=
  ((s.courts.flatMap courtTeamKeys) ++ s.queue.map getTeamKey : List (Nat × Nat))

/-- Strip the ephemeral live scores from a match. -/
def stripMatchScores (m : Match) : Match := { m with currentScores := none }

/-- Modelled from the spec: the History Snapshot of section 3 — a deep
copy of courts (without live in-progress scores), queue, match log and
sequence counter.  The snapshot of a state is the state with every
court's live scores cleared. -/
def stripScores (s : EngineState) : EngineState :=
  { s with courts := s.courts.map fun c =>
      { c with currentMatch := c.currentMatch.map stripMatchScores } }

/-- Modelled from the spec: the undo/redo wrapper of section 4.7 (its
source file is not part of the repository snapshot; only its tests are).
`cur` is the live engine state, the two stacks hold snapshots most
recent first, and both stacks are capped at `maxHistory`. -/
structure HistoryManager where
  cur : EngineState
  undoStack : List EngineState
  redoStack : List EngineState
  maxHistory : Nat
deriving DecidableEq

/-- Modelled from the spec: every tracked mutation captures a snapshot of
the pre-mutation state onto the undo stack before applying its effect,
evicting the oldest entry past the depth cap, and clears the redo
stack. -/
def pushSnapshot (h : HistoryManager) : HistoryManager :=
  { h with undoStack := (stripScores h.cur :: h.undoStack).take h.maxHistory,
           redoStack := [] }

/-- Modelled from the spec: run one tracked structural mutation `f`
(e.g. `addTeams` or `recordResult`) through the history wrapper. -/
def applyTracked (h : HistoryManager) (f : EngineState → Option QError × EngineState) :
    Option QError × HistoryManager :=
  let h1 := pushSnapshot h
  let r := f h1.cur
  (r.1, { h1 with cur := r.2 })

/-- Modelled from the spec: `undo()` — failure with no state change on an
empty undo stack; otherwise push the current state onto the redo stack
(respecting its cap) and restore the popped snapshot. -/
def undo (h : HistoryManager) : Bool × HistoryManager :=
  match h.undoStack with
  | [] => (false, h)
  | snap :: rest =>
    (true, { cur := snap, undoStack := rest,
             redoStack := (stripScores h.cur :: h.redoStack).take h.maxHistory,
             maxHistory := h.maxHistory })

/-- Modelled from the spec: `redo()`, symmetric to `undo()`. -/
def redo (h : HistoryManager) : Bool × HistoryManager :=
  match h.redoStack with
  | [] => (false, h)
  | snap :: rest =>
    (true, { cur := snap, redoStack := rest,
             undoStack := (stripScores h.cur :: h.undoStack).take h.maxHistory,
             maxHistory := h.maxHistory })

/-! Concrete fixture teams used by witnesses, counterexamples and the
literal scenario of claim C5: teams A, B, C, D with player ids 1..8. -/

def teamA : Team := ⟨⟨1, "A1"⟩, ⟨2, "A2"⟩⟩

def teamB : Team := ⟨⟨3, "B1"⟩, ⟨4, "B2"⟩⟩

def teamC : Team := ⟨⟨5, "C1"⟩, ⟨6, "C2"⟩⟩

def teamD : Team := ⟨⟨7, "D1"⟩, ⟨8, "D2"⟩⟩

/-! ## Helper lemmas characterising the two success paths of `recordResult` -/

/-- On a validated call whose post-update streak/queue condition fails the
double-win rule, `recordResult` takes the single-win path: loser pushed to
the back, one team pulled from the front, new match of that team against
the winner, streak as updated. -/
theorem recordResult_single (s : EngineState) (courtId : Nat) (court : Court) (m : Match)
    (e1 e2 w l : Int × Team) (wins : Nat) (holder : Option Team)
    (hfind : s.courts.find? (fun c => c.id == courtId) = some court)
    (hmatch : court.currentMatch = some m)
    (hv1 : (areTeamsEqual e1.2 m.team1 || areTeamsEqual e1.2 m.team2) = true)
    (hv2 : (areTeamsEqual e2.2 m.team1 || areTeamsEqual e2.2 m.team2) = true)
    (hw : w = if e2.1 > e1.1 then e2 else e1)
    (hl : l = if e2.1 > e1.1 then e1 else e2)
    (hsu : streakUpdate court w.2 = (wins, holder))
    (hcond : ¬ (2 ≤ wins ∧ 2 ≤ s.queue.length)) :
    ∃ next rest, s.queue ++ [l.2] = next :: rest ∧
      recordResult s courtId [e1, e2] =
        (none,
          { courts := updateCourt s.courts courtId
              { court with consecutiveWins := wins, currentCourtTeam := holder,
                           currentMatch := some { team1 := w.2, team2 := next,
                                                  matchNumber := s.matchCounter + 1,
                                                  courtId := some court.id } }
            queue := rest
            matchHistory := s.matchHistory ++
              [{ matchPlayed := m, winner := w.2, loser := l.2, courtId := some court.id,
                 scores := some ((w.2, w.1), (l.2, l.1)) }]
            matchCounter := s.matchCounter + 1 }) := by
  rcases hq : s.queue ++ [l.2] with _ | ⟨next, rest⟩
  · simp at hq
  · refine ⟨next, rest, rfl, ?_⟩
    unfold recordResult
    rw [hfind]
    dsimp only
    rw [hmatch]
    dsimp only
    simp only [hv1, hv2, Bool.and_self, if_true, ← hw, ← hl, hsu]
    rw [if_neg hcond]
    rw [hq]
    simp

/-- On a validated call whose post-update streak reaches 2 with at least
two queued teams, `recordResult` takes the double-win path: the two front
teams of the queue start the next match, winner then loser go to the back
of the queue, and the streak resets. -/
theorem recordResult_double (s : EngineState) (courtId : Nat) (court : Court) (m : Match)
    (e1 e2 w l : Int × Team) (wins : Nat) (holder : Option Team)
    (n1 n2 : Team) (rest : List Team)
    (hfind : s.courts.find? (fun c => c.id == courtId) = some court)
    (hmatch : court.currentMatch = some m)
    (hv1 : (areTeamsEqual e1.2 m.team1 || areTeamsEqual e1.2 m.team2) = true)
    (hv2 : (areTeamsEqual e2.2 m.team1 || areTeamsEqual e2.2 m.team2) = true)
    (hw : w = if e2.1 > e1.1 then e2 else e1)
    (hl : l = if e2.1 > e1.1 then e1 else e2)
    (hsu : streakUpdate court w.2 = (wins, holder))
    (hwins : 2 ≤ wins)
    (hq : s.queue = n1 :: n2 :: rest) :
    recordResult s courtId [e1, e2] =
      (none,
        { courts := updateCourt s.courts courtId
            { court with consecutiveWins := 0, currentCourtTeam := none,
                         currentMatch := some { team1 := n1, team2 := n2,
                                                matchNumber := s.matchCounter + 1,
                                                courtId := some court.id } }
          queue := rest ++ [w.2, l.2]
          matchHistory := s.matchHistory ++
            [{ matchPlayed := m, winner := w.2, loser := l.2, courtId := some court.id,
               scores := some ((w.2, w.1), (l.2, l.1)) }]
          matchCounter := s.matchCounter + 1 }) := by
  unfold recordResult
  rw [hfind]
  dsimp only
  rw [hmatch]
  dsimp only
  simp only [hv1, hv2, Bool.and_self, if_true, ← hw, ← hl, hsu]
  rw [if_pos ⟨hwins, by rw [hq]; simp⟩]
  rw [if_neg (by rw [hq]; simp), hq]

/-! ## Concrete fixture states (1 court, teams A, B, C, D in that order) -/

def matchAB : Match := { team1 := teamA, team2 := teamB, matchNumber := 1, courtId := some 1 }

def matchAC : Match := { team1 := teamA, team2 := teamC, matchNumber := 2, courtId := some 1 }

def matchDB : Match := { team1 := teamD, team2 := teamB, matchNumber := 3, courtId := some 1 }

/-- The state after initializing one court with A, B, C, D:
court 1 plays A vs B, queue is [C, D]. -/
def sInit : EngineState :=
  { courts := [{ id := 1, currentMatch := some matchAB, consecutiveWins := 0,
                 currentCourtTeam := none }],
    queue := [teamC, teamD],
    matchHistory := [],
    matchCounter := 1 }

def resultAB : MatchResult :=
  { matchPlayed := matchAB, winner := teamA, loser := teamB, courtId := some 1,
    scores := some ((teamA, 15), (teamB, 12)) }

def resultAC : MatchResult :=
  { matchPlayed := matchAC, winner := teamA, loser := teamC, courtId := some 1,
    scores := some ((teamA, 15), (teamC, 10)) }

/-- The state after recording A beats B 15-12 on the initial state. -/
def sA1 : EngineState :=
  { courts := [{ id := 1, currentMatch := some matchAC, consecutiveWins := 1,
                 currentCourtTeam := some teamA }],
    queue := [teamD, teamB],
    matchHistory := [resultAB],
    matchCounter := 2 }

/-- The state after then recording A beats C 15-10 (A's second
consecutive win, double-win rotation). -/
def sA2 : EngineState :=
  { courts := [{ id := 1, currentMatch := some matchDB, consecutiveWins := 0,
                 currentCourtTeam := none }],
    queue := [teamA, teamC],
    matchHistory := [resultAB, resultAC],
    matchCounter := 3 }

/-! ## Claims C1, C2, C9, C5 -/

/-- C1: on every valid `recordResult` call in which the double-win
streak/queue condition fails — the updated streak is below 2, or it
reaches 2 with exactly one queued team (the bypass case) — the engine
updates the streak (increment on same identity, else reset to 1 with the
winner as holder), pushes the loser to the back of the queue, pulls one
team from the front, and starts a new match of that team against the same
winner, who remains on the court; no error is thrown. -/
theorem C1_single_win_path (s : EngineState) (courtId : Nat) (court : Court) (m : Match)
    (e1 e2 w l : Int × Team) (wins : Nat) (holder : Option Team)
    (hfind : s.courts.find? (fun c => c.id == courtId) = some court)
    (hmatch : court.currentMatch = some m)
    (hv1 : (areTeamsEqual e1.2 m.team1 || areTeamsEqual e1.2 m.team2) = true)
    (hv2 : (areTeamsEqual e2.2 m.team1 || areTeamsEqual e2.2 m.team2) = true)
    (hw : w = if e2.1 > e1.1 then e2 else e1)
    (hl : l = if e2.1 > e1.1 then e1 else e2)
    (hsu : streakUpdate court w.2 = (wins, holder))
    (hcond : wins < 2 ∨ (2 ≤ wins ∧ s.queue.length = 1)) :
    ∃ next rest, s.queue ++ [l.2] = next :: rest ∧
      recordResult s courtId [e1, e2] =
        (none,
          { courts := updateCourt s.courts courtId
              { court with consecutiveWins := wins, currentCourtTeam := holder,
                           currentMatch := some { team1 := w.2, team2 := next,
                                                  matchNumber := s.matchCounter + 1,
                                                  courtId := some court.id } }
            queue := rest
            matchHistory := s.matchHistory ++
              [{ matchPlayed := m, winner := w.2, loser := l.2, courtId := some court.id,
                 scores := some ((w.2, w.1), (l.2, l.1)) }]
            matchCounter := s.matchCounter + 1 }) :=
  recordResult_single s courtId court m e1 e2 w l wins holder hfind hmatch hv1 hv2 hw hl hsu
    (by rcases hcond with h | ⟨h1, h2⟩ <;> omega)

/-- Witness for C1 at the concrete bypass-free input: A beats B 15-12 on
the freshly initialized state. -/
theorem C1_single_win_path_witness :
    ∃ next rest, sInit.queue ++ [teamB] = next :: rest ∧
      recordResult sInit 1 [(15, teamA), (12, teamB)] = (none, sA1) := by
  obtain ⟨next, rest, hq, hr⟩ :=
    C1_single_win_path sInit 1 ⟨1, some matchAB, 0, none⟩ matchAB
      (15, teamA) (12, teamB) (15, teamA) (12, teamB) 1 (some teamA)
      (by decide) rfl (by decide) (by decide) (by decide) (by decide) (by decide)
      (Or.inl (by decide))
  refine ⟨next, rest, hq, ?_⟩
  rw [hr]
  have hq2 : (teamC : Team) :: [teamD, teamB] = next :: rest := hq
  injection hq2 with h1 h2
  subst h1
  subst h2
  rfl

/-- C2: on every valid `recordResult` call in which, after the streak
update, the streak is at least 2 and the queue holds at least two teams,
the winner and then the loser go to the back of the queue, the two front
teams of the queue become the court's next match, and the court's streak
resets to 0 with no streak-holder. -/
theorem C2_double_win_path (s : EngineState) (courtId : Nat) (court : Court) (m : Match)
    (e1 e2 w l : Int × Team) (wins : Nat) (holder : Option Team)
    (n1 n2 : Team) (rest : List Team)
    (hfind : s.courts.find? (fun c => c.id == courtId) = some court)
    (hmatch : court.currentMatch = some m)
    (hv1 : (areTeamsEqual e1.2 m.team1 || areTeamsEqual e1.2 m.team2) = true)
    (hv2 : (areTeamsEqual e2.2 m.team1 || areTeamsEqual e2.2 m.team2) = true)
    (hw : w = if e2.1 > e1.1 then e2 else e1)
    (hl : l = if e2.1 > e1.1 then e1 else e2)
    (hsu : streakUpdate court w.2 = (wins, holder))
    (hwins : 2 ≤ wins)
    (hq : s.queue = n1 :: n2 :: rest) :
    recordResult s courtId [e1, e2] =
      (none,
        { courts := updateCourt s.courts courtId
            { court with consecutiveWins := 0, currentCourtTeam := none,
                         currentMatch := some { team1 := n1, team2 := n2,
                                                matchNumber := s.matchCounter + 1,
                                                courtId := some court.id } }
          queue := rest ++ [w.2, l.2]
          matchHistory := s.matchHistory ++
            [{ matchPlayed := m, winner := w.2, loser := l.2, courtId := some court.id,
               scores := some ((w.2, w.1), (l.2, l.1)) }]
          matchCounter := s.matchCounter + 1 }) :=
  recordResult_double s courtId court m e1 e2 w l wins holder n1 n2 rest hfind hmatch hv1 hv2
    hw hl hsu hwins hq

/-- Witness for C2 at the concrete input: A beats C 15-10 after already
having beaten B, with D and B queued. -/
theorem C2_double_win_path_witness :
    recordResult sA1 1 [(15, teamA), (10, teamC)] = (none, sA2) := by
  have h := C2_double_win_path sA1 1 ⟨1, some matchAC, 1, some teamA⟩ matchAC
    (15, teamA) (10, teamC) (15, teamA) (10, teamC) 2 (some teamA) teamD teamB []
    (by decide) rfl (by decide) (by decide) (by decide) (by decide) (by decide)
    (by decide) rfl
  rw [h]
  rfl

/-- C9: `recordResult` can never fail with the insufficient-participants
condition: both `InsufficientTeamsError` throw sites in its body are
unreachable, for every state and every input. -/
theorem C9_no_insufficient_participants (s : EngineState) (courtId : Nat)
    (entries : List (Int × Team)) :
    (recordResult s courtId entries).1 ≠ some QError.insufficientTeams := by
  unfold recordResult
  repeat' split
  all_goals try simp_all
  all_goals repeat' split
  all_goals try simp_all
  all_goals first
    | omega
    | (rename_i hlen hshape hsu
       rcases hq : s.queue with _ | ⟨a, t⟩
       · rw [hq] at hlen; simp at hlen
       · rcases t with _ | ⟨b, r⟩
         · rw [hq] at hlen; simp at hlen
         · exact hshape a b r hq)

/-- Counterexample to C5: in the literal scenario (1 court, A, B, C, D),
the claim says the queue after recording A beats B 15-12 is [C, D, B] and
the queue after then recording A beats C 15-10 is [D, B, A, C].  In fact
the first call pulls C onto the court, leaving queue [D, B], and the
second call pulls D and B onto the court, leaving queue [A, C]. -/
theorem C5_counterexample :
    (recordResult sInit 1 [(15, teamA), (12, teamB)]).2.queue ≠ [teamC, teamD, teamB] ∧
    (recordResult sA1 1 [(15, teamA), (10, teamC)]).2.queue ≠ [teamD, teamB, teamA, teamC] := by
  constructor <;> decide

/-- C5 as amended: initializing one court with A, B, C, D gives court
A vs B with queue [C, D]; recording A beats B 15-12 leaves queue [D, B]
with the court playing A vs C; recording A beats C 15-10 (A's second
consecutive win) leaves queue [A, C] with the court playing D vs B. -/
theorem C5_amended_literal_scenario :
    initTeams (mkManager 1) [teamA, teamB, teamC, teamD] = (none, sInit) ∧
    recordResult sInit 1 [(15, teamA), (12, teamB)] = (none, sA1) ∧
    sA1.queue = [teamD, teamB] ∧
    (sA1.courts.map fun c => c.currentMatch) = [some matchAC] ∧
    matchAC.team1 = teamA ∧ matchAC.team2 = teamC ∧
    recordResult sA1 1 [(15, teamA), (10, teamC)] = (none, sA2) ∧
    sA2.queue = [teamA, teamC] ∧
    (sA2.courts.map fun c => c.currentMatch) = [some matchDB] ∧
    matchDB.team1 = teamD ∧ matchDB.team2 = teamB := by
  repeat' constructor

/-! ## Claim C3: initialization -/

theorem assignCourts_len (courts : List Court) :
    ∀ (teams : List Team) (k : Nat), courts.length * 2 ≤ teams.length →
      (assignCourts courts teams k).1.length = courts.length ∧
      (assignCourts courts teams k).2.1 = teams.drop (courts.length * 2) ∧
      (assignCourts courts teams k).2.2 = k + courts.length := by
  induction courts with
  | nil => intro teams k h; simp [assignCourts]
  | cons c cs ih =>
    intro teams k h
    rcases teams with _ | ⟨t1, _ | ⟨t2, ts⟩⟩
    · simp only [List.length_cons, List.length_nil] at h; omega
    · simp only [List.length_cons, List.length_nil] at h; omega
    · have hts : cs.length * 2 ≤ ts.length := by
        simp only [List.length_cons] at h; omega
      obtain ⟨ih1, ih2, ih3⟩ := ih ts (k + 1) hts
      refine ⟨by simp [assignCourts, ih1], ?_, by simp [assignCourts, ih3]; omega⟩
      simp only [assignCourts, ih2]
      rw [show (c :: cs).length * 2 = cs.length * 2 + 2 by simp; omega]
      rfl

theorem assignCourts_get (i : Nat) :
    ∀ (courts : List Court) (teams : List Team) (k : Nat) (c : Court) (t1 t2 : Team),
      courts[i]? = some c → teams[2*i]? = some t1 → teams[2*i+1]? = some t2 →
      (assignCourts courts teams k).1[i]? = some
        { id := c.id,
          currentMatch := some { team1 := t1, team2 := t2, matchNumber := k + i + 1,
                                 courtId := some c.id, currentScores := none },
          consecutiveWins := 0, currentCourtTeam := none } := by
  induction i with
  | zero =>
    intro courts teams k c t1 t2 hc h1 h2
    rcases courts with _ | ⟨c0, cs⟩
    · simp at hc
    · rcases teams with _ | ⟨u1, _ | ⟨u2, ts⟩⟩
      · simp at h1
      · simp at h2
      · simp at hc h1 h2
        subst hc; subst h1; subst h2
        simp [assignCourts]
  | succ i ih =>
    intro courts teams k c t1 t2 hc h1 h2
    rcases courts with _ | ⟨c0, cs⟩
    · simp at hc
    · rcases teams with _ | ⟨u1, _ | ⟨u2, ts⟩⟩
      · simp at h1
      · rw [show 2 * (i + 1) = 2 * i + 1 + 1 by omega] at h1
        simp at h1
      · rw [show 2 * (i + 1) = 2 * i + 1 + 1 by omega] at h1
        rw [show 2 * (i + 1) + 1 = 2 * i + 1 + 1 + 1 by omega] at h2
        simp only [List.getElem?_cons_succ] at hc h1 h2
        have hrec := ih cs ts (k + 1) c t1 t2 hc h1 h2
        simp only [assignCourts, List.getElem?_cons_succ]
        rw [show k + (i + 1) + 1 = k + 1 + i + 1 by omega]
        exact hrec

/-- Counterexample to C3: with one court, the two-element list
[A, A] has at least `2 * courtCount` entries, so per the claim
initialization must succeed with every court holding two distinct team
identities — but it succeeds with the court playing A against A, whose
identities coincide. -/
theorem C3_counterexample :
    initTeams (mkManager 1) [teamA, teamA] =
      (none,
        { courts := [{ id := 1,
                       currentMatch := some { team1 := teamA, team2 := teamA,
                                              matchNumber := 1, courtId := some 1 },
                       consecutiveWins := 0, currentCourtTeam := none }],
          queue := [], matchHistory := [], matchCounter := 1 }) ∧
    areTeamsEqual teamA teamA = true := by
  exact ⟨rfl, by decide⟩

/-- C3 as amended: short lists fail with insufficient-participants; lists
of at least `2 * courtCount` teams succeed, assigning the prefix to
courts two at a time in input order with incremented sequence numbers and
cleared streaks, the remainder becoming the queue in order (so
`queue.length + 2 * courtCount = totalTeams`) and the match log cleared;
and — provided the input contains no two identity-equal teams — every
court holds a match with two distinct team identities. -/
theorem C3_amended_initialization (s : EngineState) (teams : List Team) :
    (teams.length < 2 * s.courts.length →
      initTeams s teams = (some QError.insufficientTeams, s))
  ∧ (2 * s.courts.length ≤ teams.length →
      ∃ s', initTeams s teams = (none, s') ∧
        s'.queue = teams.drop (2 * s.courts.length) ∧
        s'.queue.length + 2 * s.courts.length = teams.length ∧
        s'.matchHistory = [] ∧
        s'.matchCounter = s.matchCounter + s.courts.length ∧
        s'.courts.length = s.courts.length ∧
        (∀ i c t1 t2, s.courts[i]? = some c → teams[2*i]? = some t1 →
          teams[2*i+1]? = some t2 →
          s'.courts[i]? = some
            { id := c.id,
              currentMatch := some { team1 := t1, team2 := t2,
                                     matchNumber := s.matchCounter + i + 1,
                                     courtId := some c.id, currentScores := none },
              consecutiveWins := 0, currentCourtTeam := none }) ∧
        (List.Pairwise (fun a b => areTeamsEqual a b = false) teams →
          ∀ c ∈ s'.courts, ∀ m, c.currentMatch = some m →
            areTeamsEqual m.team1 m.team2 = false)) := by
  constructor
  · intro h
    unfold initTeams
    rw [if_pos (by omega)]
  · intro h
    obtain ⟨hl1, hl2, hl3⟩ := assignCourts_len s.courts teams s.matchCounter (by omega)
    refine ⟨_, by unfold initTeams; rw [if_neg (by omega)], ?_, ?_, rfl, ?_, ?_, ?_, ?_⟩
    · show (assignCourts s.courts teams s.matchCounter).2.1 = _
      rw [hl2, Nat.mul_comm]
    · show (assignCourts s.courts teams s.matchCounter).2.1.length + _ = _
      rw [hl2, List.length_drop]
      omega
    · exact hl3
    · exact hl1
    · intro i c t1 t2 hc h1 h2
      exact assignCourts_get i s.courts teams s.matchCounter c t1 t2 hc h1 h2
    · intro hpw c hcmem m hm
      obtain ⟨i, hci⟩ := List.mem_iff_getElem?.mp hcmem
      have hilt : i < s.courts.length := by
        by_contra hge
        rw [List.getElem?_eq_none (by rw [hl1]; omega)] at hci
        exact Option.noConfusion hci
      have hb1 : 2 * i < teams.length := by omega
      have hb2 : 2 * i + 1 < teams.length := by omega
      have hpoint := assignCourts_get i s.courts teams s.matchCounter
        (s.courts.get ⟨i, hilt⟩) (teams.get ⟨2*i, hb1⟩) (teams.get ⟨2*i+1, hb2⟩)
        (List.getElem?_eq_getElem hilt) (List.getElem?_eq_getElem hb1)
        (List.getElem?_eq_getElem hb2)
      rw [hci] at hpoint
      have hceq := Option.some.inj hpoint
      rw [hceq] at hm
      dsimp only at hm
      have hmeq := Option.some.inj hm
      have hne := List.pairwise_iff_getElem.mp hpw (2*i) (2*i+1) hb1 hb2 (by omega)
      rw [← hmeq]
      exact hne

/-- Witness for C3 at concrete inputs: two teams on two courts fail,
four teams on one court succeed with queue [C, D]. -/
theorem C3_amended_initialization_witness :
    initTeams (mkManager 2) [teamA, teamB] = (some QError.insufficientTeams, mkManager 2) ∧
    (∃ s', initTeams (mkManager 1) [teamA, teamB, teamC, teamD] = (none, s') ∧
      s'.queue = [teamC, teamD]) := by
  refine ⟨(C3_amended_initialization (mkManager 2) [teamA, teamB]).1 (by decide), ?_⟩
  obtain ⟨s', h1, h2, -⟩ :=
    (C3_amended_initialization (mkManager 1) [teamA, teamB, teamC, teamD]).2 (by decide)
  exact ⟨s', h1, by rw [h2]; rfl⟩

/-! ## Claims C4 and C6: validation, errors, winner selection -/

/-- A call that passes all three validations always succeeds. -/
theorem recordResult_valid_none (s : EngineState) (courtId : Nat) (court : Court) (m : Match)
    (e1 e2 : Int × Team)
    (hfind : s.courts.find? (fun c => c.id == courtId) = some court)
    (hmatch : court.currentMatch = some m)
    (hv1 : (areTeamsEqual e1.2 m.team1 || areTeamsEqual e1.2 m.team2) = true)
    (hv2 : (areTeamsEqual e2.2 m.team1 || areTeamsEqual e2.2 m.team2) = true) :
    (recordResult s courtId [e1, e2]).1 = none := by
  by_cases hcond : 2 ≤ (streakUpdate court (if e2.1 > e1.1 then e2 else e1).2).1 ∧
      2 ≤ s.queue.length
  · rcases hq : s.queue with _ | ⟨n1, _ | ⟨n2, rest⟩⟩
    · rw [hq] at hcond; simp at hcond
    · rw [hq] at hcond; simp at hcond
    · have h := recordResult_double s courtId court m e1 e2 _ _ _ _ n1 n2 rest hfind hmatch
        hv1 hv2 rfl rfl rfl hcond.1 hq
      rw [h]
  · obtain ⟨next, rest, hq, h⟩ := recordResult_single s courtId court m e1 e2 _ _ _ _
      hfind hmatch hv1 hv2 rfl rfl rfl hcond
    rw [h]

/-- C4: `recordResult` fails with court-not-found exactly when no court
has the given id; with no-active-match exactly when the addressed court
has no current match; with invalid-result exactly when the entries are
not exactly two score/team pairs each of whose teams is
(identity-equally) one of the two teams of the court's current match; and
each of these failures leaves the state completely unchanged. -/
theorem C4_error_taxonomy (s : EngineState) (courtId : Nat) (entries : List (Int × Team)) :
    ((recordResult s courtId entries).1 = some QError.courtNotFound ↔
      ∀ c ∈ s.courts, c.id ≠ courtId)
  ∧ ((recordResult s courtId entries).1 = some QError.noActiveMatch ↔
      ∃ court, s.courts.find? (fun c => c.id == courtId) = some court ∧
        court.currentMatch = none)
  ∧ ((recordResult s courtId entries).1 = some QError.invalidMatchResult ↔
      ∃ court m, s.courts.find? (fun c => c.id == courtId) = some court ∧
        court.currentMatch = some m ∧
        ¬ (∃ e1 e2, entries = [e1, e2] ∧
            (areTeamsEqual e1.2 m.team1 || areTeamsEqual e1.2 m.team2) = true ∧
            (areTeamsEqual e2.2 m.team1 || areTeamsEqual e2.2 m.team2) = true))
  ∧ (((recordResult s courtId entries).1 = some QError.courtNotFound ∨
      (recordResult s courtId entries).1 = some QError.noActiveMatch ∨
      (recordResult s courtId entries).1 = some QError.invalidMatchResult) →
      (recordResult s courtId entries).2 = s) := by
  rcases hfind : s.courts.find? (fun c => c.id == courtId) with _ | court
  · have hrr : recordResult s courtId entries = (some QError.courtNotFound, s) := by
      unfold recordResult; rw [hfind]
    have hall : ∀ c ∈ s.courts, c.id ≠ courtId := by
      intro c hc
      have := List.find?_eq_none.mp hfind c hc
      simpa using this
    rw [hrr]
    refine ⟨⟨fun _ => hall, fun _ => rfl⟩, ?_, ?_, fun _ => rfl⟩
    · simp [hfind]
    · simp [hfind]
  · have hid : (court.id == courtId) = true := by
      have h := List.find?_some hfind
      exact h
    have hmem : court ∈ s.courts := List.mem_of_find?_eq_some hfind
    have hnall : ¬ ∀ c ∈ s.courts, c.id ≠ courtId := by
      intro hall
      exact hall court hmem (by simpa using hid)
    rcases hmatch : court.currentMatch with _ | m
    · have hrr : recordResult s courtId entries = (some QError.noActiveMatch, s) := by
        unfold recordResult; rw [hfind]; dsimp only; rw [hmatch]
      rw [hrr]
      refine ⟨⟨fun h => by simp at h, fun h => absurd h hnall⟩,
              ⟨fun _ => ⟨court, hfind, hmatch⟩, fun _ => rfl⟩, ?_, fun _ => rfl⟩
      constructor
      · intro h; simp at h
      · rintro ⟨court', m', hf, hcm, -⟩
        rw [hfind] at hf
        cases hf
        rw [hmatch] at hcm
        exact Option.noConfusion hcm
    · have hno : ¬ ∃ court', s.courts.find? (fun c => c.id == courtId) = some court' ∧
          court'.currentMatch = none := by
        rintro ⟨court', hf, hcm⟩
        rw [hfind] at hf
        cases hf
        rw [hmatch] at hcm
        exact Option.noConfusion hcm
      rcases entries with _ | ⟨a, _ | ⟨b, _ | ⟨c, rest⟩⟩⟩
      · have hrr : recordResult s courtId [] = (some QError.invalidMatchResult, s) := by
          unfold recordResult; rw [hfind]; dsimp only; rw [hmatch]
        rw [hrr]
        refine ⟨⟨fun h => by simp at h, fun h => absurd h hnall⟩,
                ⟨fun h => by simp at h, fun h => absurd h hno⟩,
                ⟨fun _ => ⟨court, m, hfind, hmatch, by rintro ⟨e1, e2, heq, -⟩; simp at heq⟩,
                 fun _ => rfl⟩, fun _ => rfl⟩
      · have hrr : recordResult s courtId [a] = (some QError.invalidMatchResult, s) := by
          unfold recordResult; rw [hfind]; dsimp only; rw [hmatch]
        rw [hrr]
        refine ⟨⟨fun h => by simp at h, fun h => absurd h hnall⟩,
                ⟨fun h => by simp at h, fun h => absurd h hno⟩,
                ⟨fun _ => ⟨court, m, hfind, hmatch, by rintro ⟨e1, e2, heq, -⟩; simp at heq⟩,
                 fun _ => rfl⟩, fun _ => rfl⟩
      · by_cases hval : ((areTeamsEqual a.2 m.team1 || areTeamsEqual a.2 m.team2)
            && (areTeamsEqual b.2 m.team1 || areTeamsEqual b.2 m.team2)) = true
        · have hv1 := (Bool.and_eq_true _ _).mp hval |>.1
          have hv2 := (Bool.and_eq_true _ _).mp hval |>.2
          have hnone := recordResult_valid_none s courtId court m a b hfind hmatch hv1 hv2
          refine ⟨⟨fun h => by rw [hnone] at h; exact Option.noConfusion h,
                   fun h => absurd h hnall⟩,
                  ⟨fun h => by rw [hnone] at h; exact Option.noConfusion h,
                   fun h => absurd h hno⟩,
                  ⟨fun h => by rw [hnone] at h; exact Option.noConfusion h, ?_⟩, ?_⟩
          · rintro ⟨court', m', hf, hcm, hnex⟩
            rw [hfind] at hf
            cases hf
            rw [hmatch] at hcm
            cases hcm
            exact absurd ⟨a, b, rfl, hv1, hv2⟩ hnex
          · rintro (h | h | h) <;> rw [hnone] at h <;> exact Option.noConfusion h
        · have hrr : recordResult s courtId [a, b] = (some QError.invalidMatchResult, s) := by
            unfold recordResult; rw [hfind]; dsimp only; rw [hmatch]; dsimp only
            rw [if_neg hval]
          rw [hrr]
          refine ⟨⟨fun h => by simp at h, fun h => absurd h hnall⟩,
                  ⟨fun h => by simp at h, fun h => absurd h hno⟩,
                  ⟨fun _ => ⟨court, m, hfind, hmatch, ?_⟩, fun _ => rfl⟩, fun _ => rfl⟩
          rintro ⟨e1, e2, heq, hb1, hb2⟩
          have ha : e1 = a := by
            injection heq with h1 h2
            exact h1.symm
          have hb : e2 = b := by
            injection heq with h1 h2
            injection h2 with h3 h4
            exact h3.symm
          subst ha; subst hb
          exact hval (by rw [hb1, hb2]; rfl)
      · have hrr : recordResult s courtId (a :: b :: c :: rest) =
            (some QError.invalidMatchResult, s) := by
          unfold recordResult; rw [hfind]; dsimp only; rw [hmatch]
        rw [hrr]
        refine ⟨⟨fun h => by simp at h, fun h => absurd h hnall⟩,
                ⟨fun h => by simp at h, fun h => absurd h hno⟩,
                ⟨fun _ => ⟨court, m, hfind, hmatch, by rintro ⟨e1, e2, heq, -⟩; simp at heq⟩,
                 fun _ => rfl⟩, fun _ => rfl⟩

/-- Witness exercising C4 at a concrete input: recording on the unknown
court 999 fails with court-not-found and leaves the state unchanged. -/
theorem C4_error_taxonomy_witness :
    (recordResult sInit 999 []).1 = some QError.courtNotFound ∧
    (recordResult sInit 999 []).2 = sInit := by
  have h := C4_error_taxonomy sInit 999 []
  have h1 := h.1.mpr (by decide)
  exact ⟨h1, h.2.2.2 (Or.inl h1)⟩

/-- C6: on every successful `recordResult` call the recorded winner is
the entry with the strictly higher score, the stored result lists the
winner's score ahead of the loser's, and two equal scores are not
rejected — the call still succeeds, nominally making the first entry the
winner (the stable descending sort keeps the order of equal elements). -/
theorem C6_winner_selection (s : EngineState) (courtId : Nat) (court : Court) (m : Match)
    (e1 e2 w l : Int × Team)
    (hfind : s.courts.find? (fun c => c.id == courtId) = some court)
    (hmatch : court.currentMatch = some m)
    (hv1 : (areTeamsEqual e1.2 m.team1 || areTeamsEqual e1.2 m.team2) = true)
    (hv2 : (areTeamsEqual e2.2 m.team1 || areTeamsEqual e2.2 m.team2) = true)
    (hw : w = if e2.1 > e1.1 then e2 else e1)
    (hl : l = if e2.1 > e1.1 then e1 else e2) :
    ∃ s', recordResult s courtId [e1, e2] = (none, s') ∧
      s'.matchHistory = s.matchHistory ++
        [{ matchPlayed := m, winner := w.2, loser := l.2, courtId := some court.id,
           scores := some ((w.2, w.1), (l.2, l.1)) }] ∧
      l.1 ≤ w.1 ∧
      (e1.1 < e2.1 → w = e2 ∧ l = e1) ∧
      (e2.1 < e1.1 → w = e1 ∧ l = e2) ∧
      (e1.1 = e2.1 → w = e1 ∧ l = e2) := by
  have hscores : l.1 ≤ w.1 ∧
      (e1.1 < e2.1 → w = e2 ∧ l = e1) ∧
      (e2.1 < e1.1 → w = e1 ∧ l = e2) ∧
      (e1.1 = e2.1 → w = e1 ∧ l = e2) := by
    subst hw; subst hl
    by_cases hgt : e2.1 > e1.1
    · rw [if_pos hgt, if_pos hgt]
      exact ⟨by omega, fun _ => ⟨rfl, rfl⟩, fun h => by omega, fun h => by omega⟩
    · rw [if_neg hgt, if_neg hgt]
      exact ⟨by omega, fun h => by omega, fun _ => ⟨rfl, rfl⟩, fun _ => ⟨rfl, rfl⟩⟩
  by_cases hcond : 2 ≤ (streakUpdate court w.2).1 ∧ 2 ≤ s.queue.length
  · rcases hq : s.queue with _ | ⟨n1, _ | ⟨n2, rest⟩⟩
    · rw [hq] at hcond; simp at hcond
    · rw [hq] at hcond; simp at hcond
    · have h := recordResult_double s courtId court m e1 e2 w l _ _ n1 n2 rest hfind hmatch
        hv1 hv2 hw hl rfl hcond.1 hq
      exact ⟨_, h, by simp, hscores.1, hscores.2.1, hscores.2.2.1, hscores.2.2.2⟩
  · obtain ⟨next, rest, hq, h⟩ := recordResult_single s courtId court m e1 e2 w l _ _
      hfind hmatch hv1 hv2 hw hl rfl hcond
    exact ⟨_, h, by simp, hscores.1, hscores.2.1, hscores.2.2.1, hscores.2.2.2⟩

/-- Witness for C6 at a concrete tie: both teams submit 15; the call
succeeds and the first entry's team (A) is recorded as winner. -/
theorem C6_winner_selection_witness :
    ∃ s', recordResult sInit 1 [(15, teamA), (15, teamB)] = (none, s') ∧
      s'.matchHistory = [{ matchPlayed := matchAB, winner := teamA, loser := teamB,
                           courtId := some 1, scores := some ((teamA, 15), (teamB, 15)) }] := by
  obtain ⟨s', hr, hh, -, -, -, htie⟩ :=
    C6_winner_selection sInit 1 ⟨1, some matchAB, 0, none⟩ matchAB
      (15, teamA) (15, teamB) (15, teamA) (15, teamB)
      (by decide) rfl (by decide) (by decide) (by decide) (by decide)
  exact ⟨s', hr, by rw [hh]; rfl⟩

/-! ## Claim C10: conservation of queue length and of team identities -/

/-- Occurrence count of an identity key, fixed to the `BEq` instance that
`Multiset.count` on a coerced list unfolds to. -/
def keyCount (x : Nat × Nat) (l : List (Nat × Nat)) : Nat :=
  @List.count _ instBEqOfDecidableEq x l

/-- Count of a single key, kept opaque so that sums of counts normalise. -/
def keyOne (x a : Nat × Nat) : Nat := keyCount x [a]

theorem keyCount_append (x : Nat × Nat) (l1 l2 : List (Nat × Nat)) :
    keyCount x (l1 ++ l2) = keyCount x l1 + keyCount x l2 :=
  @List.count_append _ instBEqOfDecidableEq x l1 l2

theorem keyCount_cons (x a : Nat × Nat) (l : List (Nat × Nat)) :
    keyCount x (a :: l) = keyOne x a + keyCount x l := by
  unfold keyOne keyCount
  simp only [List.count_cons, List.count_nil]
  omega

theorem keyCount_nil (x : Nat × Nat) : keyCount x [] = 0 := rfl

theorem count_coe (x : Nat × Nat) (l : List (Nat × Nat)) :
    Multiset.count x (l : Multiset (Nat × Nat)) = keyCount x l :=
  Multiset.coe_count x l

/-- The court found by id splits the court list, and `updateCourt`
replaces exactly that occurrence. -/
theorem find?_updateCourt (courts : List Court) (courtId : Nat) (court : Court)
    (hfind : courts.find? (fun c => c.id == courtId) = some court) :
    ∃ pre post, courts = pre ++ court :: post ∧
      ∀ c', updateCourt courts courtId c' = pre ++ c' :: post := by
  induction courts with
  | nil => simp at hfind
  | cons c cs ih =>
    by_cases hc : (c.id == courtId) = true
    · simp only [List.find?_cons, hc, if_true] at hfind
      have : c = court := by injection hfind
      subst this
      exact ⟨[], cs, by simp, fun c' => by simp [updateCourt, hc]⟩
    · simp only [List.find?_cons, hc, if_false] at hfind
      obtain ⟨pre, post, heq, hupd⟩ := ih hfind
      refine ⟨c :: pre, post, by simp [heq], fun c' => ?_⟩
      simp only [updateCourt]
      rw [if_neg hc, hupd c']
      simp

set_option maxHeartbeats 1000000 in
/-- C10 as amended: every successful `recordResult` call leaves the queue
length unchanged; and when the two score entries match the match's two
teams one-to-one (rather than both naming the same team, which validation
also accepts), the multiset of team identities across courts and queue is
preserved. -/
theorem C10_amended_conservation (s : EngineState) (courtId : Nat) (court : Court) (m : Match)
    (e1 e2 w l : Int × Team)
    (hfind : s.courts.find? (fun c => c.id == courtId) = some court)
    (hmatch : court.currentMatch = some m)
    (hv1 : (areTeamsEqual e1.2 m.team1 || areTeamsEqual e1.2 m.team2) = true)
    (hv2 : (areTeamsEqual e2.2 m.team1 || areTeamsEqual e2.2 m.team2) = true)
    (hw : w = if e2.1 > e1.1 then e2 else e1)
    (hl : l = if e2.1 > e1.1 then e1 else e2) :
    ∃ s', recordResult s courtId [e1, e2] = (none, s') ∧
      s'.queue.length = s.queue.length ∧
      (((areTeamsEqual e1.2 m.team1 = true ∧ areTeamsEqual e2.2 m.team2 = true) ∨
        (areTeamsEqual e1.2 m.team2 = true ∧ areTeamsEqual e2.2 m.team1 = true)) →
        occupantKeys s' = occupantKeys s) := by
  obtain ⟨pre, post, hsplit, hupd⟩ := find?_updateCourt s.courts courtId court hfind
  have hwl : (w.2 = e1.2 ∧ l.2 = e2.2) ∨ (w.2 = e2.2 ∧ l.2 = e1.2) := by
    subst hw; subst hl
    by_cases hgt : e2.1 > e1.1
    · rw [if_pos hgt, if_pos hgt]; right; exact ⟨rfl, rfl⟩
    · rw [if_neg hgt, if_neg hgt]; left; exact ⟨rfl, rfl⟩
  have hB : (((areTeamsEqual e1.2 m.team1 = true ∧ areTeamsEqual e2.2 m.team2 = true) ∨
        (areTeamsEqual e1.2 m.team2 = true ∧ areTeamsEqual e2.2 m.team1 = true))) →
      ∀ x, keyOne x (getTeamKey w.2) + keyOne x (getTeamKey l.2) =
        keyOne x (getTeamKey m.team1) + keyOne x (getTeamKey m.team2) := by
    intro hpair x
    rcases hwl with ⟨hw2, hl2⟩ | ⟨hw2, hl2⟩ <;>
      rcases hpair with ⟨hp1, hp2⟩ | ⟨hp1, hp2⟩ <;>
      rw [hw2, hl2] <;>
      rw [areTeamsEqual_iff_key] at hp1 hp2 <;>
      rw [hp1, hp2]
    · exact Nat.add_comm _ _
    · exact Nat.add_comm _ _
  by_cases hcond : 2 ≤ (streakUpdate court w.2).1 ∧ 2 ≤ s.queue.length
  · rcases hq : s.queue with _ | ⟨n1, _ | ⟨n2, rest⟩⟩
    · rw [hq] at hcond; simp at hcond
    · rw [hq] at hcond; simp at hcond
    · have h := recordResult_double s courtId court m e1 e2 w l
        ((streakUpdate court w.2).1) ((streakUpdate court w.2).2) n1 n2 rest hfind hmatch
        hv1 hv2 hw hl rfl hcond.1 hq
      refine ⟨_, h, ?_, ?_⟩
      · simp [hq]
      · intro hpair
        apply Multiset.ext.mpr
        intro x
        have hBx := hB hpair x
        have hqk : s.queue.map getTeamKey =
            getTeamKey n1 :: getTeamKey n2 :: rest.map getTeamKey := by
          rw [hq]; rfl
        have hA := congrArg (keyCount x) hqk
        simp only [keyCount_cons] at hA
        unfold occupantKeys
        dsimp only
        rw [hupd, hsplit]
        rw [count_coe, count_coe]
        simp only [List.flatMap_append, List.flatMap_cons, List.map_append, List.map_cons,
          List.map_nil, courtTeamKeys, hmatch, keyCount_append, keyCount_cons, keyCount_nil]
        omega
  · obtain ⟨next, rest, hq, h⟩ := recordResult_single s courtId court m e1 e2 w l
      ((streakUpdate court w.2).1) ((streakUpdate court w.2).2)
      hfind hmatch hv1 hv2 hw hl rfl hcond
    refine ⟨_, h, ?_, ?_⟩
    · have hlen := congrArg List.length hq
      simp at hlen
      dsimp only
      omega
    · intro hpair
      apply Multiset.ext.mpr
      intro x
      have hBx := hB hpair x
      have hqk : s.queue.map getTeamKey ++ [getTeamKey l.2] =
          getTeamKey next :: rest.map getTeamKey := by
        have := congrArg (List.map getTeamKey) hq
        simpa using this
      have hA := congrArg (keyCount x) hqk
      simp only [keyCount_append, keyCount_cons, keyCount_nil] at hA
      unfold occupantKeys
      dsimp only
      rw [hupd, hsplit]
      rw [count_coe, count_coe]
      simp only [List.flatMap_append, List.flatMap_cons, List.map_append, List.map_cons,
        List.map_nil, courtTeamKeys, hmatch, keyCount_append, keyCount_cons, keyCount_nil]
      omega

def sABC : EngineState :=
  { courts := [{ id := 1, currentMatch := some matchAB, consecutiveWins := 0,
                 currentCourtTeam := none }],
    queue := [teamC], matchHistory := [], matchCounter := 1 }

/-- Counterexample to C10 as stated: with court A vs B and queue [C],
submitting both score entries for team A passes validation and succeeds,
but team B's identity disappears from the courts and queue (its count
drops from 1 to 0), so the multiset of team identities is not preserved
by every successful call. -/
theorem C10_counterexample :
    (recordResult sABC 1 [(15, teamA), (10, teamA)]).1 = none ∧
    Multiset.count (getTeamKey teamB) (occupantKeys sABC) = 1 ∧
    Multiset.count (getTeamKey teamB)
      (occupantKeys (recordResult sABC 1 [(15, teamA), (10, teamA)]).2) = 0 ∧
    occupantKeys (recordResult sABC 1 [(15, teamA), (10, teamA)]).2 ≠ occupantKeys sABC := by
  refine ⟨rfl, by decide, by decide, fun h => ?_⟩
  have h1 : Multiset.count (getTeamKey teamB) (occupantKeys sABC) = 1 := by decide
  have h0 : Multiset.count (getTeamKey teamB)
      (occupantKeys (recordResult sABC 1 [(15, teamA), (10, teamA)]).2) = 0 := by decide
  rw [h] at h0
  rw [h1] at h0
  exact Nat.noConfusion h0

/-- Witness for C10 as amended at a concrete input: A beats B on the
initial four-team state; queue length stays 2 and the identity multiset
is preserved. -/
theorem C10_amended_conservation_witness :
    ∃ s', recordResult sInit 1 [(15, teamA), (12, teamB)] = (none, s') ∧
      s'.queue.length = sInit.queue.length ∧ occupantKeys s' = occupantKeys sInit := by
  obtain ⟨s', h, hlen, hm⟩ := C10_amended_conservation sInit 1
    ⟨1, some matchAB, 0, none⟩ matchAB (15, teamA) (12, teamB) (15, teamA) (12, teamB)
    (by decide) rfl (by decide) (by decide) (by decide) (by decide)
  exact ⟨s', h, hlen, hm (Or.inl ⟨by decide, by decide⟩)⟩

/-! ## Claim C7: derived statistics -/

theorem updateStats_keys (l : StatsMap) (k : Nat × Nat) (f : TeamStatistics → TeamStatistics) :
    (updateStats l k f).map (fun p => p.1) = l.map (fun p => p.1) := by
  induction l with
  | nil => rfl
  | cons p rest ih =>
    by_cases h : (p.1 == k) = true
    · simp [updateStats, h]
    · simp only [updateStats, if_neg h, List.map_cons, ih]

theorem updateStats_entok (l : StatsMap) (k : Nat × Nat) (f : TeamStatistics → TeamStatistics)
    (hok : ∀ p ∈ l, getTeamKey p.2.team = p.1) (hf : ∀ st, (f st).team = st.team) :
    ∀ p ∈ updateStats l k f, getTeamKey p.2.team = p.1 := by
  induction l with
  | nil => intro p hp; simp [updateStats] at hp
  | cons q rest ih =>
    intro p hp
    by_cases h : (q.1 == k) = true
    · simp only [updateStats, if_pos h] at hp
      rcases List.mem_cons.mp hp with heq | hmem
      · subst heq
        dsimp only
        rw [hf q.2]
        exact hok q (List.mem_cons_self q rest)
      · exact hok p (List.mem_cons_of_mem q hmem)
    · simp only [updateStats, if_neg h] at hp
      rcases List.mem_cons.mp hp with heq | hmem
      · subst heq
        exact hok p (List.mem_cons_self p rest)
      · exact ih (fun p hp => hok p (List.mem_cons_of_mem q hp)) p hmem

theorem updateStats_sum_pres (g : TeamStatistics → Nat) (l : StatsMap) (k : Nat × Nat)
    (f : TeamStatistics → TeamStatistics) (hf : ∀ st, g (f st) = g st) :
    ((updateStats l k f).map (fun p => g p.2)).sum = (l.map (fun p => g p.2)).sum := by
  induction l with
  | nil => rfl
  | cons p rest ih =>
    by_cases h : (p.1 == k) = true
    · simp [updateStats, h, hf]
    · simp only [updateStats, if_neg h, List.map_cons, List.sum_cons, ih]

theorem updateStats_sum_bump (g : TeamStatistics → Nat) (l : StatsMap) (k : Nat × Nat)
    (f : TeamStatistics → TeamStatistics) (hf : ∀ st, g (f st) = g st + 1)
    (hk : k ∈ l.map (fun p => p.1)) :
    ((updateStats l k f).map (fun p => g p.2)).sum = (l.map (fun p => g p.2)).sum + 1 := by
  induction l with
  | nil => simp at hk
  | cons p rest ih =>
    by_cases h : (p.1 == k) = true
    · simp [updateStats, h, hf]
      omega
    · have hk' : k ∈ rest.map (fun p => p.1) := by
        rw [List.map_cons] at hk
        rcases List.mem_cons.mp hk with heq | hmem
        · exact absurd heq.symm (by simpa using h)
        · exact hmem
      simp only [updateStats, if_neg h, List.map_cons, List.sum_cons, ih hk']
      omega

theorem ensureEntry_any_iff (l : StatsMap) (k : Nat × Nat) :
    (l.any (fun p => p.1 == k)) = true ↔ k ∈ l.map (fun p => p.1) := by
  rw [List.any_eq_true]
  constructor
  · rintro ⟨p, hp, hbeq⟩
    exact List.mem_map.mpr ⟨p, hp, by simpa using hbeq⟩
  · intro h
    obtain ⟨p, hp, heq⟩ := List.mem_map.mp h
    exact ⟨p, hp, by simpa using heq⟩

theorem ensureEntry_mem (l : StatsMap) (k : Nat × Nat) (t : Team) :
    ∀ k', k' ∈ (ensureEntry l k t).map (fun p => p.1) ↔
      k' ∈ l.map (fun p => p.1) ∨ k' = k := by
  intro k'
  unfold ensureEntry
  by_cases hany : (l.any (fun p => p.1 == k)) = true
  · rw [if_pos hany]
    have hk := (ensureEntry_any_iff l k).mp hany
    constructor
    · exact fun h => Or.inl h
    · rintro (h | rfl)
      · exact h
      · exact hk
  · rw [if_neg hany]
    simp

theorem ensureEntry_nodup (l : StatsMap) (k : Nat × Nat) (t : Team)
    (hnd : (l.map (fun p => p.1)).Nodup) :
    ((ensureEntry l k t).map (fun p => p.1)).Nodup := by
  unfold ensureEntry
  by_cases hany : (l.any (fun p => p.1 == k)) = true
  · rwa [if_pos hany]
  · rw [if_neg hany]
    have hnk : k ∉ l.map (fun p => p.1) := fun h => hany ((ensureEntry_any_iff l k).mpr h)
    simp only [List.map_append, List.map_cons, List.map_nil]
    rw [List.nodup_append]
    exact ⟨hnd, List.nodup_singleton k, by simpa using hnk⟩

theorem ensureEntry_entok (l : StatsMap) (k : Nat × Nat) (t : Team)
    (hok : ∀ p ∈ l, getTeamKey p.2.team = p.1) (ht : getTeamKey t = k) :
    ∀ p ∈ ensureEntry l k t, getTeamKey p.2.team = p.1 := by
  intro p hp
  unfold ensureEntry at hp
  by_cases hany : (l.any (fun p => p.1 == k)) = true
  · rw [if_pos hany] at hp
    exact hok p hp
  · rw [if_neg hany] at hp
    rcases List.mem_append.mp hp with hmem | hmem
    · exact hok p hmem
    · have : p = (k, initStats t) := by simpa using hmem
      subst this
      exact ht

theorem ensureEntry_sum (g : TeamStatistics → Nat) (l : StatsMap) (k : Nat × Nat) (t : Team)
    (hg : g (initStats t) = 0) :
    ((ensureEntry l k t).map (fun p => g p.2)).sum = (l.map (fun p => g p.2)).sum := by
  unfold ensureEntry
  by_cases hany : (l.any (fun p => p.1 == k)) = true
  · rw [if_pos hany]
  · rw [if_neg hany]
    simp [hg]

theorem ensureEntry_mem_self (l : StatsMap) (k : Nat × Nat) (t : Team) :
    k ∈ (ensureEntry l k t).map (fun p => p.1) :=
  (ensureEntry_mem l k t k).mpr (Or.inr rfl)

theorem applyResult_spec (acc : StatsMap) (r : MatchResult)
    (hnd : (acc.map (fun p => p.1)).Nodup)
    (hok : ∀ p ∈ acc, getTeamKey p.2.team = p.1) :
    ((applyResult acc r).map (fun p => p.1)).Nodup ∧
    (∀ p ∈ applyResult acc r, getTeamKey p.2.team = p.1) ∧
    (∀ k', k' ∈ (applyResult acc r).map (fun p => p.1) ↔
      k' ∈ acc.map (fun p => p.1) ∨ k' = getTeamKey r.winner ∨ k' = getTeamKey r.loser) ∧
    ((applyResult acc r).map (fun p => p.2.wins)).sum =
      (acc.map (fun p => p.2.wins)).sum + 1 ∧
    ((applyResult acc r).map (fun p => p.2.losses)).sum =
      (acc.map (fun p => p.2.losses)).sum + 1 := by
  have hnd1 := ensureEntry_nodup acc (getTeamKey r.winner) r.winner hnd
  have hok1 := ensureEntry_entok acc (getTeamKey r.winner) r.winner hok rfl
  have hnd2 := ensureEntry_nodup _ (getTeamKey r.loser) r.loser hnd1
  have hok2 := ensureEntry_entok _ (getTeamKey r.loser) r.loser hok1 rfl
  have hmem2 : ∀ k', k' ∈ ((ensureEntry (ensureEntry acc (getTeamKey r.winner) r.winner)
      (getTeamKey r.loser) r.loser).map (fun p => p.1)) ↔
      k' ∈ acc.map (fun p => p.1) ∨ k' = getTeamKey r.winner ∨ k' = getTeamKey r.loser := by
    intro k'
    rw [ensureEntry_mem, ensureEntry_mem]
    tauto
  have hkW2 : getTeamKey r.winner ∈ ((ensureEntry (ensureEntry acc (getTeamKey r.winner)
      r.winner) (getTeamKey r.loser) r.loser).map (fun p => p.1)) :=
    (hmem2 _).mpr (Or.inr (Or.inl rfl))
  have hkL2 : getTeamKey r.loser ∈ ((ensureEntry (ensureEntry acc (getTeamKey r.winner)
      r.winner) (getTeamKey r.loser) r.loser).map (fun p => p.1)) :=
    ensureEntry_mem_self _ _ _
  -- acc3 = updateStats acc2 kW bumpWins ; acc4 = updateStats acc3 kL bumpLosses
  have hkeys3 := updateStats_keys (ensureEntry (ensureEntry acc (getTeamKey r.winner)
      r.winner) (getTeamKey r.loser) r.loser) (getTeamKey r.winner) bumpWins
  have hkeys4 := updateStats_keys (updateStats (ensureEntry (ensureEntry acc
      (getTeamKey r.winner) r.winner) (getTeamKey r.loser) r.loser)
      (getTeamKey r.winner) bumpWins) (getTeamKey r.loser) bumpLosses
  have hnd4 : ((updateStats (updateStats (ensureEntry (ensureEntry acc
      (getTeamKey r.winner) r.winner) (getTeamKey r.loser) r.loser)
      (getTeamKey r.winner) bumpWins) (getTeamKey r.loser) bumpLosses).map
        (fun p => p.1)).Nodup := by
    rw [hkeys4, hkeys3]; exact hnd2
  have hok4 : ∀ p ∈ updateStats (updateStats (ensureEntry (ensureEntry acc
      (getTeamKey r.winner) r.winner) (getTeamKey r.loser) r.loser)
      (getTeamKey r.winner) bumpWins) (getTeamKey r.loser) bumpLosses,
      getTeamKey p.2.team = p.1 :=
    updateStats_entok _ _ _ (updateStats_entok _ _ _ hok2 (fun st => rfl)) (fun st => rfl)
  have hmem4 : ∀ k', k' ∈ ((updateStats (updateStats (ensureEntry (ensureEntry acc
      (getTeamKey r.winner) r.winner) (getTeamKey r.loser) r.loser)
      (getTeamKey r.winner) bumpWins) (getTeamKey r.loser) bumpLosses).map
        (fun p => p.1)) ↔
      k' ∈ acc.map (fun p => p.1) ∨ k' = getTeamKey r.winner ∨ k' = getTeamKey r.loser := by
    intro k'
    rw [hkeys4, hkeys3]
    exact hmem2 k'
  have hsumW4 : ((updateStats (updateStats (ensureEntry (ensureEntry acc
      (getTeamKey r.winner) r.winner) (getTeamKey r.loser) r.loser)
      (getTeamKey r.winner) bumpWins) (getTeamKey r.loser) bumpLosses).map
        (fun p => p.2.wins)).sum = (acc.map (fun p => p.2.wins)).sum + 1 := by
    rw [updateStats_sum_pres (fun st => st.wins) _ _ bumpLosses (fun st => rfl)]
    rw [updateStats_sum_bump (fun st => st.wins) _ _ bumpWins (fun st => rfl) hkW2]
    rw [ensureEntry_sum (fun st => st.wins) _ _ _ rfl,
        ensureEntry_sum (fun st => st.wins) _ _ _ rfl]
  have hsumL4 : ((updateStats (updateStats (ensureEntry (ensureEntry acc
      (getTeamKey r.winner) r.winner) (getTeamKey r.loser) r.loser)
      (getTeamKey r.winner) bumpWins) (getTeamKey r.loser) bumpLosses).map
        (fun p => p.2.losses)).sum = (acc.map (fun p => p.2.losses)).sum + 1 := by
    rw [updateStats_sum_bump (fun st => st.losses) _ _ bumpLosses (fun st => rfl) (by
      rw [hkeys3]; exact hkL2)]
    rw [updateStats_sum_pres (fun st => st.losses) _ _ bumpWins (fun st => rfl)]
    rw [ensureEntry_sum (fun st => st.losses) _ _ _ rfl,
        ensureEntry_sum (fun st => st.losses) _ _ _ rfl]
  unfold applyResult
  rcases hs : r.scores with _ | ⟨s1, s2⟩
  · exact ⟨hnd4, hok4, hmem4, hsumW4, hsumL4⟩
  · dsimp only
    split
    · rename_i ws ls hws hls
      refine ⟨?_, ?_, ?_, ?_, ?_⟩
      · rw [updateStats_keys, updateStats_keys, hkeys4, hkeys3]
        exact hnd2
      · exact updateStats_entok _ _ _ (updateStats_entok _ _ _ hok4 (fun st => rfl))
          (fun st => rfl)
      · intro k'
        rw [updateStats_keys, updateStats_keys]
        rw [hkeys4, hkeys3]
        exact hmem2 k'
      · rw [updateStats_sum_pres (fun st => st.wins) _ _ (addPoints ls ws) (fun st => rfl),
            updateStats_sum_pres (fun st => st.wins) _ _ (addPoints ws ls) (fun st => rfl)]
        exact hsumW4
      · rw [updateStats_sum_pres (fun st => st.losses) _ _ (addPoints ls ws) (fun st => rfl),
            updateStats_sum_pres (fun st => st.losses) _ _ (addPoints ws ls) (fun st => rfl)]
        exact hsumL4
    · exact ⟨hnd4, hok4, hmem4, hsumW4, hsumL4⟩

theorem foldStats_spec (history : List MatchResult) :
    ∀ acc : StatsMap, (acc.map (fun p => p.1)).Nodup →
      (∀ p ∈ acc, getTeamKey p.2.team = p.1) →
      ((history.foldl applyResult acc).map (fun p => p.1)).Nodup ∧
      (∀ p ∈ history.foldl applyResult acc, getTeamKey p.2.team = p.1) ∧
      (∀ k, k ∈ (history.foldl applyResult acc).map (fun p => p.1) ↔
        k ∈ acc.map (fun p => p.1) ∨
          ∃ r ∈ history, k = getTeamKey r.winner ∨ k = getTeamKey r.loser) ∧
      ((history.foldl applyResult acc).map (fun p => p.2.wins)).sum =
        (acc.map (fun p => p.2.wins)).sum + history.length ∧
      ((history.foldl applyResult acc).map (fun p => p.2.losses)).sum =
        (acc.map (fun p => p.2.losses)).sum + history.length := by
  induction history with
  | nil =>
    intro acc hnd hok
    exact ⟨hnd, hok, fun k => by simp, by simp, by simp⟩
  | cons r rest ih =>
    intro acc hnd hok
    obtain ⟨nd1, ok1, mem1, w1, l1⟩ := applyResult_spec acc r hnd hok
    obtain ⟨ndR, okR, memR, wR, lR⟩ := ih (applyResult acc r) nd1 ok1
    simp only [List.foldl_cons, List.length_cons]
    refine ⟨ndR, okR, ?_, ?_, ?_⟩
    · intro k
      rw [memR k, mem1 k]
      constructor
      · rintro ((h | h | h) | ⟨r', hr', h⟩)
        · exact Or.inl h
        · exact Or.inr ⟨r, List.mem_cons_self r rest, Or.inl h⟩
        · exact Or.inr ⟨r, List.mem_cons_self r rest, Or.inr h⟩
        · exact Or.inr ⟨r', List.mem_cons_of_mem r hr', h⟩
      · rintro (h | ⟨r', hr', h⟩)
        · exact Or.inl (Or.inl h)
        · rcases List.mem_cons.mp hr' with heq | hmem
          · subst heq
            exact Or.inl (Or.inr h)
          · exact Or.inr ⟨r', hmem, h⟩
    · rw [wR, w1]
      omega
    · rw [lR, l1]
      omega

theorem statsLe_trans : ∀ a b c : TeamStatistics,
    statsLe a b = true → statsLe b c = true → statsLe a c = true := by
  intro a b c h1 h2
  unfold statsLe at *
  simp only [Bool.or_eq_true, Bool.and_eq_true, decide_eq_true_eq, beq_iff_eq] at *
  omega

theorem statsLe_total : ∀ a b : TeamStatistics, (statsLe a b || statsLe b a) = true := by
  intro a b
  unfold statsLe
  simp only [Bool.or_eq_true, Bool.and_eq_true, decide_eq_true_eq, beq_iff_eq]
  omega

theorem statsLe_imp {a b : TeamStatistics} (h : statsLe a b = true) :
    b.wins < a.wins ∨ (a.wins = b.wins ∧ b.totalPoints ≤ a.totalPoints) := by
  unfold statsLe at h
  simp only [Bool.or_eq_true, Bool.and_eq_true, decide_eq_true_eq, beq_iff_eq] at h
  omega

/-- C7: for every match log, `getTeamStatistics` returns one entry per
distinct team identity appearing in the log (keys are distinct and cover
exactly the identities of recorded winners and losers), sorted by wins
descending with ties broken by total points descending, and the wins of
all entries sum to the log length, as do the losses. -/
theorem C7_team_statistics (history : List MatchResult) :
    ((getTeamStatistics history).map (fun st => getTeamKey st.team)).Nodup
  ∧ (∀ k, (∃ st ∈ getTeamStatistics history, getTeamKey st.team = k) ↔
      (∃ r ∈ history, k = getTeamKey r.winner ∨ k = getTeamKey r.loser))
  ∧ (getTeamStatistics history).Pairwise (fun a b =>
      b.wins < a.wins ∨ (a.wins = b.wins ∧ b.totalPoints ≤ a.totalPoints))
  ∧ ((getTeamStatistics history).map (fun st => st.wins)).sum = history.length
  ∧ ((getTeamStatistics history).map (fun st => st.losses)).sum = history.length := by
  obtain ⟨hnd, hok, hmem, hw, hl⟩ := foldStats_spec history [] (by simp) (by simp)
  have hperm : (getTeamStatistics history).Perm
      ((history.foldl applyResult []).map (fun p => p.2)) := by
    unfold getTeamStatistics
    exact List.mergeSort_perm _ _
  have hkeyeq : (history.foldl applyResult []).map (fun p => getTeamKey p.2.team) =
      (history.foldl applyResult []).map (fun p => p.1) :=
    List.map_congr_left hok
  refine ⟨?_, ?_, ?_, ?_, ?_⟩
  · have hp := hperm.map (fun st => getTeamKey st.team)
    rw [List.map_map] at hp
    rw [hp.nodup_iff]
    have : ((fun st => getTeamKey st.team) ∘ fun p : (Nat × Nat) × TeamStatistics => p.2) =
        fun p : (Nat × Nat) × TeamStatistics => getTeamKey p.2.team := rfl
    rw [this, hkeyeq]
    exact hnd
  · intro k
    have h1 : (∃ st ∈ getTeamStatistics history, getTeamKey st.team = k) ↔
        (∃ st ∈ (history.foldl applyResult []).map (fun p => p.2),
          getTeamKey st.team = k) :=
      ⟨fun ⟨st, hst, he⟩ => ⟨st, hperm.mem_iff.mp hst, he⟩,
       fun ⟨st, hst, he⟩ => ⟨st, hperm.mem_iff.mpr hst, he⟩⟩
    have h2 : (∃ st ∈ (history.foldl applyResult []).map (fun p => p.2),
        getTeamKey st.team = k) ↔
        k ∈ (history.foldl applyResult []).map (fun p => p.1) := by
      constructor
      · rintro ⟨st, hst, he⟩
        obtain ⟨p, hp, hpe⟩ := List.mem_map.mp hst
        refine List.mem_map.mpr ⟨p, hp, ?_⟩
        rw [← (hok p hp)]
        rw [hpe]
        exact he
      · intro hk
        obtain ⟨p, hp, hpe⟩ := List.mem_map.mp hk
        exact ⟨p.2, List.mem_map.mpr ⟨p, hp, rfl⟩, (hok p hp).trans hpe⟩
    have h3 : k ∈ (history.foldl applyResult []).map (fun p => p.1) ↔
        ∃ r ∈ history, k = getTeamKey r.winner ∨ k = getTeamKey r.loser := by
      rw [hmem k]
      simp
    exact h1.trans (h2.trans h3)
  · unfold getTeamStatistics
    exact (List.sorted_mergeSort statsLe_trans statsLe_total
      ((history.foldl applyResult []).map (fun p => p.2))).imp (fun h => statsLe_imp h)
  · have hp := (hperm.map (fun st => st.wins)).sum_eq
    rw [hp, List.map_map]
    simpa using hw
  · have hp := (hperm.map (fun st => st.losses)).sum_eq
    rw [hp, List.map_map]
    simpa using hl

/-! ## Claim C8: undo/redo (modelled from the spec) -/

/-- A state whose court carries live in-progress scores. -/
def sLive : EngineState :=
  { courts := [{ id := 1,
                 currentMatch := some { team1 := teamA, team2 := teamB, matchNumber := 1,
                                        courtId := some 1, currentScores := some (5, 3) },
                 consecutiveWins := 0, currentCourtTeam := none }],
    queue := [teamC], matchHistory := [], matchCounter := 1 }

/-- History wrapper over `sLive` with empty stacks and depth cap 20. -/
def hmLive : HistoryManager :=
  { cur := sLive, undoStack := [], redoStack := [], maxHistory := 20 }

/-- History wrapper over the score-free state `sABC`. -/
def hmBase : HistoryManager :=
  { cur := sABC, undoStack := [], redoStack := [], maxHistory := 20 }

/-- Counterexample to C8 as stated: snapshots exclude live in-progress
scores, so for a tracked mutation (here `addTeams`) performed on a state
whose court holds live scores, `undo()` followed by `redo()` does not
reproduce the state immediately after the mutation — the live scores are
lost. -/
theorem C8_counterexample :
    (applyTracked hmLive (fun s => addTeams s [teamD])).1 = none ∧
    (undo (applyTracked hmLive (fun s => addTeams s [teamD])).2).1 = true ∧
    (redo (undo (applyTracked hmLive (fun s => addTeams s [teamD])).2).2).1 = true ∧
    (redo (undo (applyTracked hmLive (fun s => addTeams s [teamD])).2).2).2.cur ≠
      (applyTracked hmLive (fun s => addTeams s [teamD])).2.cur := by
  exact ⟨rfl, rfl, rfl, by decide⟩

/-- C8 as amended (modelled from the spec, sections 3 and 4.7): every
tracked mutation pushes a snapshot of the pre-mutation state onto the
undo stack (evicting past the depth cap) and clears the redo stack;
`undo()` fails with no state change on an empty stack, and otherwise
pushes the current state onto the redo stack and restores the popped
snapshot; `undo()` followed by `redo()` reproduces the post-mutation
state with live in-progress scores cleared — exactly reproducing it
whenever that state carries no live scores. -/
theorem C8_amended_undo_redo (h : HistoryManager) (f : EngineState → Option QError × EngineState)
    (hmax : 1 ≤ h.maxHistory) :
    (applyTracked h f).2.undoStack =
      (stripScores h.cur :: h.undoStack).take h.maxHistory ∧
    (applyTracked h f).2.redoStack = [] ∧
    (applyTracked h f).2.cur = (f h.cur).2 ∧
    (h.undoStack = [] → undo h = (false, h)) ∧
    (undo (applyTracked h f).2).1 = true ∧
    (undo (applyTracked h f).2).2.cur = stripScores h.cur ∧
    (redo (undo (applyTracked h f).2).2).1 = true ∧
    (redo (undo (applyTracked h f).2).2).2.cur = stripScores (f h.cur).2 ∧
    (stripScores (f h.cur).2 = (f h.cur).2 →
      (redo (undo (applyTracked h f).2).2).2.cur = (f h.cur).2) := by
  obtain ⟨n, hn⟩ : ∃ n, h.maxHistory = n + 1 := ⟨h.maxHistory - 1, by omega⟩
  have htake : (stripScores h.cur :: h.undoStack).take h.maxHistory =
      stripScores h.cur :: h.undoStack.take n := by
    rw [hn]
    exact List.take_succ_cons
  have happ : applyTracked h f =
      ((f h.cur).1,
        { cur := (f h.cur).2,
          undoStack := (stripScores h.cur :: h.undoStack).take h.maxHistory,
          redoStack := [], maxHistory := h.maxHistory }) := rfl
  have hundo : undo (applyTracked h f).2 =
      (true,
        { cur := stripScores h.cur,
          undoStack := h.undoStack.take n,
          redoStack := (stripScores (f h.cur).2 :: []).take h.maxHistory,
          maxHistory := h.maxHistory }) := by
    rw [happ]
    unfold undo
    dsimp only
    rw [htake]
  have hredoStack : (stripScores (f h.cur).2 :: ([] : List EngineState)).take h.maxHistory =
      [stripScores (f h.cur).2] := by
    rw [hn]
    simp
  have hredo : redo (undo (applyTracked h f).2).2 =
      (true,
        { cur := stripScores (f h.cur).2,
          undoStack := (stripScores (stripScores h.cur) :: h.undoStack.take n).take
            h.maxHistory,
          redoStack := [], maxHistory := h.maxHistory }) := by
    rw [hundo]
    unfold redo
    dsimp only
    rw [hredoStack]
  refine ⟨by rw [happ], by rw [happ], by rw [happ], ?_, by rw [hundo], by rw [hundo],
    by rw [hredo], by rw [hredo], fun hs => by rw [hredo]; exact hs⟩
  intro hempty
  unfold undo
  rw [hempty]

/-- Witness for C8 as amended at a concrete input: adding team D on the
score-free three-team state, then undoing and redoing. -/
theorem C8_amended_undo_redo_witness :
    (undo (applyTracked hmBase (fun s => addTeams s [teamD])).2).1 = true ∧
    (undo (applyTracked hmBase (fun s => addTeams s [teamD])).2).2.cur = hmBase.cur ∧
    (redo (undo (applyTracked hmBase (fun s => addTeams s [teamD])).2).2).2.cur =
      (addTeams hmBase.cur [teamD]).2 := by
  have h := C8_amended_undo_redo hmBase (fun s => addTeams s [teamD]) (by decide)
  refine ⟨h.2.2.2.2.1, ?_, h.2.2.2.2.2.2.2.2 (by decide)⟩
  rw [h.2.2.2.2.2.1]
  decide
